import Mathlib

/-!
Shallow embedding of the narc/nap editor-completion plugin.

The embedding follows the Python sources:
  * `rplugin/python3/narc/server/settings.py` — configuration loading,
    `load_external`, `assemble`, `load_factories`, `initial`;
  * `rplugin/python3/nap/__init__.py` — the editor event handlers
    (`manual`, `omnifunc`, `text_changed_i`, `text_changed_p`, ...);
  * `rplugin/python3/fancy_completion/server/types.py` — the frozen
    dataclasses (`State`, `Step`, `Settings`, `SourceFactory`, ...).

Modules that the handlers import but whose files are not part of the corpus
(`server/transitions.py`, `server/scheduler.py`, `server/completion.py`,
`shared/types.py`, the intrinsic client modules) are modelled from the
specification; each such definition says so in its doc comment.

Python values are embedded as follows: numbers as `ℚ` / `ℤ` / `ℕ`, `None`
as `Option.none`, `math.inf` through the dedicated `PyFloat` type, dicts as
insertion-ordered association lists with unique keys, sets as lists of their
elements, and raised exceptions as `Except.error`.
-/

namespace Narc

/-- A Python float as used by the settings code: a finite rational or
`math.inf`. -/
inductive PyFloat where
  | fin (q : ℚ)
  | inf
deriving DecidableEq

/-- Division of a Python float by a positive finite constant, as in
`(config["timeout"] or inf) / 1000`: `inf / c` stays `inf`. -/
def PyFloat.divBy (x : PyFloat) (c : ℚ) : PyFloat :=
  match x with
  | .fin q => .fin (q / c)
  | .inf => .inf

/-- Python `x or d` for an optional number `x` and default `d`: `None` and
`0` are falsy, every other number is truthy. -/
def or_else_q (x : Option ℚ) (d : PyFloat) : PyFloat :=
  match x with
  | none => d
  | some q => if q = 0 then d else .fin q

/-- Python `x or d` for an optional integer `x` and integer default `d`
(`spec.rank or 100` in `assemble`). -/
def or_else_z (x : Option ℤ) (d : ℤ) : ℤ :=
  match x with
  | none => d
  | some r => if r = 0 then d else r

/-- The `MatchOptions` as constructed in `initial` (settings.py): transpose band
and the set of unifying characters. The Python set is modelled as the list
of its elements. -/
structure MatchOptions where
  transpose_band : ℕ
  unifying_chars : List Char
deriving DecidableEq

/-- The `DisplayOptions` as constructed in `initial` (settings.py). -/
structure DisplayOptions where
  ellipsis : String
  tabsize : ℕ
  pum_max_len : ℕ
deriving DecidableEq

/-- The `CacheOptions` as constructed in `initial` (settings.py). -/
structure CacheOptions where
  prefix_matches : ℕ
  short_name : String
  source_name : String
  limit : ℚ
  rank_penalty : ℤ
deriving DecidableEq

/-- The `CacheSpec` as constructed in `load_source` (settings.py). -/
structure CacheSpec where
  enabled : Bool
  same_filetype : Bool
deriving DecidableEq

/-- A free-form JSON-ish config payload (`config["config"]`), carried through
the pipeline untouched; modelled as an association list. -/
abbrev ConfigPayload := List (String × String)

/-- The `SourceSpec`: its declaration (narc/server/types.py) is not in the
corpus; the fields and their order are fixed by the constructor call in
`load_source` (settings.py lines 28-37). -/
structure SourceSpec where
  main : String
  enabled : Bool
  short_name : String
  limit : Option ℚ
  unique : Bool
  cache : CacheSpec
  rank : Option ℤ
  config : ConfigPayload
deriving DecidableEq

/-- The `SnippetEngineSpec` as constructed in `load_engine` (settings.py). -/
structure SnippetEngineSpec where
  main : String
  enabled : Bool
  kinds : List String
  config : ConfigPayload
deriving DecidableEq

/-- A source manufacture function (`Factory`). The six intrinsic client
modules (`narc/clients/*`) are not in the corpus, so their `main` entry
points are abstract tags; an externally loaded entry point is identified by
the path it was resolved at. -/
inductive Factory where
  | around
  | buffers
  | lsp
  | paths
  | tmux
  | tree_sitter
  | externalFn (path : String)
deriving DecidableEq

/-- The `Seed` (shared/types.py is not in the corpus): the read-only context
handed to a source factory; the fields are fixed by the constructor call in
`assemble` (settings.py line 104): match options, resolved limit, config. -/
structure Seed where
  match_ : MatchOptions
  limit : PyFloat
  config : ConfigPayload
deriving DecidableEq

/-- The `SourceFactory`: its declaration (narc/server/types.py) is not in the
corpus; the fields are fixed by the constructor call in `assemble`
(settings.py lines 105-114). -/
structure SourceFactory where
  enabled : Bool
  short_name : String
  limit : PyFloat
  unique : Bool
  cache : CacheSpec
  rank : ℤ
  seed : Seed
  manufacture : Factory
deriving DecidableEq

/-- The `Settings` as constructed in `initial` (settings.py lines 76-85). The
Python dicts `sources` and `snippet_engines` are insertion-ordered
association lists with unique keys. -/
structure Settings where
  retries : ℕ
  timeout : PyFloat
  display : DisplayOptions
  match_ : MatchOptions
  cache : CacheOptions
  sources : List (String × SourceSpec)
  snippet_engines : List (String × SnippetEngineSpec)
  logging_level : String
deriving DecidableEq

/-- The raw `cache` sub-dict of one source's configuration as read by
`load_source`. -/
structure RawCache where
  enabled : Bool
  same_filetype : Bool
deriving DecidableEq

/-- The raw configuration dict of one source, with exactly the keys read by
`load_source` (settings.py lines 23-38). -/
structure RawSource where
  main : String
  enabled : Bool
  short_name : String
  limit : Option ℚ
  unique : Bool
  cache : RawCache
  rank : Option ℤ
  config : ConfigPayload
deriving DecidableEq

/-- The raw configuration dict of one snippet engine as read by
`load_engine` (settings.py lines 41-48); `config` may be absent or null. -/
structure RawEngine where
  main : String
  enabled : Bool
  kinds : List String
  config : Option ConfigPayload
deriving DecidableEq

/-- The raw `display` sub-dict read by `initial`. -/
structure RawDisplay where
  ellipsis : String
  tabsize : ℕ
  pum_max_len : ℕ
deriving DecidableEq

/-- The raw `match` sub-dict read by `initial`. -/
structure RawMatch where
  transpose_band : ℕ
  unifying_chars : List Char
deriving DecidableEq

/-- The raw `cache` top-level sub-dict read by `initial`. -/
structure RawCacheOpts where
  prefix_matches : ℕ
  short_name : String
  source_name : String
  limit : ℚ
  rank_penalty : ℤ
deriving DecidableEq

/-- The merged configuration handed to `initial`. Reading the defaults file
and merging the user/client layers (`load_json`, `merge_all`) is an external
collaborator (spec section 1); `initial` is embedded from the merged result
on. `timeout` is a nullable number of milliseconds. -/
structure Config where
  retries : ℕ
  timeout : Option ℚ
  display : RawDisplay
  match_ : RawMatch
  cache : RawCacheOpts
  sources : List (String × RawSource)
  snippet_engines : List (String × RawEngine)
  logging_level : String

/-- The `load_source` (settings.py lines 23-38). -/
def load_source (config : RawSource) : SourceSpec :=
  let cache : CacheSpec :=
    { enabled := config.cache.enabled
      same_filetype := config.cache.same_filetype }
  { main := config.main
    enabled := config.enabled
    short_name := config.short_name
    limit := config.limit
    unique := config.unique
    cache := cache
    rank := config.rank
    config := config.config }

/-- The `load_engine` (settings.py lines 41-48); `config.get("config") or {}`
yields the empty payload when the key is absent or null. -/
def load_engine (config : RawEngine) : SnippetEngineSpec :=
  { main := config.main
    enabled := config.enabled
    kinds := config.kinds
    config := match config.config with | none => [] | some c => c }

/-- The `initial` (settings.py lines 51-86), from the already-merged config. The
settings timeout is `(config["timeout"] or inf) / 1000`. -/
def initial (config : Config) : Settings :=
  let display : DisplayOptions :=
    { ellipsis := config.display.ellipsis
      tabsize := config.display.tabsize
      pum_max_len := config.display.pum_max_len }
  let match_ : MatchOptions :=
    { transpose_band := config.match_.transpose_band
      unifying_chars := config.match_.unifying_chars }
  let cache : CacheOptions :=
    { prefix_matches := config.cache.prefix_matches
      short_name := config.cache.short_name
      source_name := config.cache.source_name
      limit := config.cache.limit
      rank_penalty := config.cache.rank_penalty }
  let sources := config.sources.map (fun p => (p.1, load_source p.2))
  let snippet_engines := config.snippet_engines.map (fun p => (p.1, load_engine p.2))
  { retries := config.retries
    timeout := (or_else_q config.timeout .inf).divBy 1000
    display := display
    match_ := match_
    cache := cache
    sources := sources
    snippet_engines := snippet_engines
    logging_level := config.logging_level }

/-- A loaded Python module as `load_external` sees it: its function members,
as returned by `getmembers(mod, isfunction)`, name first. -/
structure PyModule where
  functions : List (String × Factory)

/-- The collaborators `load_external` reads: the search path list
`load_hierarchy`, the entry-point name `module_entry_point` (both from
`shared/consts.py`, not in the corpus), and the filesystem/loader pair
`exists` + `load_module`, combined into one finite map from candidate
paths to modules. -/
structure LoaderEnv where
  load_hierarchy : List String
  module_entry_point : String
  fs : String → Option PyModule

/-- The `os.path.join(path, main_name)` as used in `load_external`. -/
def join_path (path main_name : String) : String :=
  path ++ "/" ++ main_name

/-- The `load_external` (settings.py lines 89-97): walk the hierarchy; at the
first existing candidate whose module has a function member named
`module_entry_point`, return that function; otherwise `None`. A candidate
that exists but lacks the entry point does not stop the walk. -/
def load_external (env : LoaderEnv) (main_name : String) : Option Factory :=
  env.load_hierarchy.findSome? fun path =>
    match env.fs (join_path path main_name) with
    | none => none
    | some mod =>
      (mod.functions.find? (fun m => m.1 == env.module_entry_point)).map Prod.snd

/-- The `assemble` (settings.py lines 100-115): resolve `limit` via
`spec.limit or inf` and `rank` via `spec.rank or 100`, build the `Seed`
with the same resolved limit, and package everything as a
`SourceFactory`. -/
def assemble (spec : SourceSpec) (main : Factory) (match_ : MatchOptions) : SourceFactory :=
  let limit := or_else_q spec.limit .inf
  let rank := or_else_z spec.rank 100
  let config := spec.config
  let seed : Seed := { match_ := match_, limit := limit, config := config }
  { enabled := spec.enabled
    short_name := spec.short_name
    limit := limit
    unique := spec.unique
    cache := spec.cache
    rank := rank
    seed := seed
    manufacture := main }

/-- A Python `KeyError`, carrying the missing key. -/
structure KeyErr where
  key : String
deriving DecidableEq

/-- The `intrinsic` dict literal of `load_factories` (settings.py lines
120-127). The client modules are not in the corpus; the six names are the
ones the specification lists (around, buffers, lsp, paths, tmux,
tree_sitter), each mapped to its abstract `main`. -/
def intrinsic : List (String × Factory) :=
  [("around", .around), ("buffers", .buffers), ("lsp", .lsp),
   ("paths", .paths), ("tmux", .tmux), ("tree_sitter", .tree_sitter)]

/-- The first loop of `load_factories.cont` (settings.py lines 129-131):
for each intrinsic name in order, `settings.sources[name]` — a `KeyError`
on the first missing name — then `assemble`. -/
def load_intrinsics (sources : List (String × SourceSpec)) (match_ : MatchOptions) :
    List (String × Factory) → Except KeyErr (List (String × SourceFactory))
  | [] => .ok []
  | (name, main) :: rest =>
    match sources.lookup name with
    | none => .error ⟨name⟩
    | some spec =>
      (load_intrinsics sources match_ rest).map
        (fun tl => (name, assemble spec main match_) :: tl)

/-- The `load_factories` (settings.py lines 118-140): first every intrinsic name
(looked up in `settings.sources`, `KeyError` when absent), then every
non-intrinsic configured source whose `main` resolves through
`load_external`; unresolvable external names are skipped. The generator's
yields are collected into the insertion-ordered factory map. (The loop body
re-reads `settings.sources[name]` while iterating `settings.sources.items()`;
in a Python dict that rebinding yields the pair's own value.) -/
def load_factories (env : LoaderEnv) (settings : Settings) :
    Except KeyErr (List (String × SourceFactory)) :=
  (load_intrinsics settings.sources settings.match_ intrinsic).map fun intr =>
    intr ++ settings.sources.filterMap fun p =>
      if (intrinsic.lookup p.1).isSome then none
      else
        match load_external env p.2.main with
        | some main => some (p.1, assemble p.2 main settings.match_)
        | none => none

/-- The `State` (fancy_completion/server/types.py lines 63-67, a frozen
dataclass): whether a character was just inserted, whether a completion was
just inserted, the toggled source-name set (`Set[str]`, modelled as a list
of names). -/
structure State where
  char_inserted : Bool
  comp_inserted : Bool
  sources : List String
deriving DecidableEq

/-- Modelled from the spec: `server/transitions.py` is not in the corpus.
`char_inserted(state)` marks that a printable character was just typed
(spec section 4.1). -/
def t_char_inserted (s : State) : State :=
  { s with char_inserted := true }

/-- Modelled from the spec: `comp_inserted(state)` marks that a completion
was just accepted (spec section 4.1). -/
def t_comp_inserted (s : State) : State :=
  { s with comp_inserted := true }

/-- Modelled from the spec: `text_changed(state)` clears the char-inserted
flag unconditionally and consumes the one-shot comp-inserted suppression
(spec section 4.1). -/
def t_text_changed (s : State) : State :=
  { s with char_inserted := false, comp_inserted := false }

/-- Modelled from the spec: `natural_insertable(state)` is true iff the
state reflects organic typing — char inserted and not comp inserted
(spec section 4.1). -/
def t_natural_insertable (s : State) : Bool :=
  s.char_inserted && !s.comp_inserted

/-- Modelled from the spec: `set_sources` purely replaces the active
source-id set (spec section 4.1). -/
def t_set_sources (s : State) (srcs : List String) : State :=
  { s with sources := srcs }

/-- Modelled from the spec: `toggle_sources` purely flips membership of each
given source id in the active set (spec section 4.1). -/
def t_toggle_sources (s : State) (srcs : List String) : State :=
  { s with sources :=
      (srcs.foldl
        (fun acc n => if acc.contains n then acc.filter (fun x => x != n) else acc ++ [n])
        s.sources) }

/-- The `GenOptions` (server/completion.py is not in the corpus): the fields and
the `force` default are fixed by the call sites in nap/__init__.py —
`GenOptions(force=True, sources=...)` and `GenOptions(sources=...)`. -/
structure GenOptions where
  force : Bool := false
  sources : List String
deriving DecidableEq

/-- The `Signal` (server/scheduler.py is not in the corpus): nap/__init__.py
wraps the options as `Signal(args=(options,))`, a one-tuple. -/
structure Signal where
  args : GenOptions
deriving DecidableEq

/-- The `Main.next_comp` (nap/__init__.py lines 101-105): wrap the options in a
`Signal` and enqueue it on the scheduler channel. The embedding returns the
enqueued signal. -/
def next_comp (options : GenOptions) : Signal :=
  ⟨options⟩

/-- The `Main.manual` (nap/__init__.py lines 116-118): always enqueue a forced
request scoped to the currently toggled sources. -/
def manual (state : State) : Signal :=
  next_comp { force := true, sources := state.sources }

/-- The `Main.omnifunc` (nap/__init__.py lines 120-127): on the find-start probe
(`find_start == 1`) return `-1` and enqueue nothing; otherwise enqueue a
forced request and return `-2`. The result is (return value, enqueued
signal if any). -/
def omnifunc (state : State) (find_start : ℤ) : ℤ × Option Signal :=
  if find_start = 1 then (-1, none)
  else (-2, some (next_comp { force := true, sources := state.sources }))

/-- The `Main.insert_enter` (nap/__init__.py lines 129-131): enqueue an unforced
request scoped to the currently toggled sources. -/
def insert_enter (state : State) : Signal :=
  next_comp { sources := state.sources }

/-- How an event handler exits: normally, or with a propagating
exception. -/
inductive HandlerExit where
  | normal
  | raised
deriving DecidableEq

/-- The `Main.text_changed_i` (nap/__init__.py lines 137-143): inside `try`,
evaluate `t_natural_insertable` on the current state and, when it holds,
enqueue an unforced signal; the `finally` block rebinds the state to
`t_text_changed` of it in every case, and an exception raised by the
enqueue propagates after the `finally` block ran. `enqueue_raises` models
whether the enqueue call raises. The result is (state after the handler,
enqueued signal if any, how the handler exited). -/
def text_changed_i (state : State) (enqueue_raises : Bool) :
    State × Option Signal × HandlerExit :=
  if t_natural_insertable state then
    if enqueue_raises then (t_text_changed state, none, .raised)
    else (t_text_changed state, some (next_comp { sources := state.sources }), .normal)
  else (t_text_changed state, none, .normal)

/-- The `Main.text_changed_p` (nap/__init__.py lines 145-151): same body as
`text_changed_i`. -/
def text_changed_p (state : State) (enqueue_raises : Bool) :
    State × Option Signal × HandlerExit :=
  if t_natural_insertable state then
    if enqueue_raises then (t_text_changed state, none, .raised)
    else (t_text_changed state, some (next_comp { sources := state.sources }), .normal)
  else (t_text_changed state, none, .normal)

/-- Modelled from the spec: `server/scheduler.py` is not in the corpus.
Scheduler state for the last-write-wins policy of spec section 4.2: `gen`
numbers the admitted Signals, `active` is the generation of the in-flight
merge (if any), `delivered` is the sequence of (generation, result) pairs
the consumer has observed. -/
structure SchedState where
  gen : ℕ
  active : Option ℕ
  delivered : List (ℕ × ℕ)
deriving DecidableEq

/-- An event at the scheduler: a new Signal arrives, or the merge launched
for generation `gen` completes with a result. -/
inductive SchedEvent where
  | signal
  | merge_done (gen : ℕ) (result : ℕ)
deriving DecidableEq

/-- Modelled from the spec (section 4.2): a newly arriving Signal starts a
fresh generation and supersedes — cancels — any in-flight merge; a merge
completion is delivered to the consumer only if its generation is still the
active one, and a stale completion is discarded wholesale. -/
def sched_step (s : SchedState) : SchedEvent → SchedState
  | .signal =>
    { gen := s.gen + 1, active := some (s.gen + 1), delivered := s.delivered }
  | .merge_done g r =>
    if s.active = some g then
      { s with active := none, delivered := s.delivered ++ [(g, r)] }
    else s

/-- Run the scheduler over a sequence of events. -/
def sched_run (s : SchedState) (events : List SchedEvent) : SchedState :=
  events.foldl sched_step s

/-- The scheduler before any Signal arrived. -/
def sched_init : SchedState :=
  { gen := 0, active := none, delivered := [] }

/-- The `Completion` (shared/types.py is not in the corpus); modelled from the
spec (section 3): display text, normalized text computed once at creation,
originating source identity. -/
structure Completion where
  source : String
  text : String
  text_normalized : String
deriving DecidableEq

/-- The `Step` (fancy_completion/server/types.py lines 44-50, a frozen
dataclass): a Completion enriched with provenance and the normalized text
used for scoring. -/
structure Step where
  source : String
  source_shortname : String
  text : String
  text_normalized : String
  comp : Completion
deriving DecidableEq

/-- Modelled from the spec: `server/completion.py` is not in the corpus.
The unit the merge engine ranks — a Step together with its source's rank
bias and its fuzzy match score (spec section 4.3 step 7). -/
structure RankedStep where
  rank : ℤ
  score : ℚ
  step : Step
deriving DecidableEq

/-- Modelled from the spec: the ranking key, ascending — (source rank bias,
match score with the better (higher) score first, normalized text). The
score component is negated so that the whole key is an ascending
lexicographic order. -/
def rank_key (a : RankedStep) : ℤ ×ₗ (ℚ ×ₗ String) :=
  toLex (a.rank, toLex (-a.score, a.step.text_normalized))

/-- The merge engine's comparison: ascending on `rank_key`. -/
def rank_le (a b : RankedStep) : Bool :=
  decide (rank_key a ≤ rank_key b)

/-- Modelled from the spec (section 4.3 steps 7-8): the merge engine sorts
the gathered batch by the ranking key and caps the emitted stream at the
settings-wide display limit (`pum_max_len`). -/
def merge_emit (settings : Settings) (steps : List RankedStep) : List RankedStep :=
  (steps.mergeSort rank_le).take settings.display.pum_max_len

/-- The outcome of Python attribute assignment on a frozen dataclass:
`@dataclass(frozen=True)` generates a `__setattr__` that unconditionally
raises `FrozenInstanceError`
(fancy_completion/server/types.py declares its records frozen). -/
inductive AttrSet where
  | frozenInstanceError
deriving DecidableEq

/-- Attribute assignment on a `State` (frozen dataclass): always raises. -/
def State.setattr_model (_ : State) (_attr : String) : AttrSet :=
  .frozenInstanceError

/-- Attribute assignment on a `Step` (frozen dataclass): always raises. -/
def Step.setattr_model (_ : Step) (_attr : String) : AttrSet :=
  .frozenInstanceError

/-- Attribute assignment on a `Settings` (frozen dataclass): always
raises. -/
def Settings.setattr_model (_ : Settings) (_attr : String) : AttrSet :=
  .frozenInstanceError

/-- Attribute assignment on a `SourceFactory` (frozen dataclass): always
raises. -/
def SourceFactory.setattr_model (_ : SourceFactory) (_attr : String) : AttrSet :=
  .frozenInstanceError

/-! Concrete example data used by witnesses and counterexamples. -/

/-- A loader environment with an empty search hierarchy: no external name
resolves. -/
def env0 : LoaderEnv :=
  { load_hierarchy := [], module_entry_point := "main", fs := fun _ => none }

/-- A spec for an externally named source, with absent limit and rank. -/
def spec_ext : SourceSpec :=
  { main := "myext.py", enabled := true, short_name := "EXT", limit := none,
    unique := true, cache := ⟨false, false⟩, rank := none, config := [] }

/-- A spec with concrete truthy limit and rank and a disabled flag. -/
def spec0 : SourceSpec :=
  { main := "x", enabled := false, short_name := "S", limit := some 10,
    unique := true, cache := ⟨true, false⟩, rank := some 2, config := [] }

/-- Build a Settings value around a given sources map. -/
def mkSettings (srcs : List (String × SourceSpec)) : Settings :=
  { retries := 2, timeout := .inf, display := ⟨"...", 4, 10⟩,
    match_ := ⟨2, []⟩, cache := ⟨20, "c", "cache", 10, 1⟩,
    sources := srcs, snippet_engines := [], logging_level := "DEBUG" }

/-- Settings whose sources map has every intrinsic name plus one
externally named source. -/
def settings_all : Settings :=
  mkSettings
    [("around", spec0), ("buffers", spec0), ("lsp", spec0), ("paths", spec0),
     ("tmux", spec0), ("tree_sitter", spec0), ("myext", spec_ext)]

/-- Settings whose sources map holds only the externally named source and
no intrinsic entry. -/
def settings_noint : Settings :=
  mkSettings [("myext", spec_ext)]

/-- The factory map `load_factories env0 settings_all` evaluates to: the six
intrinsic factories in order; the external name does not resolve under
`env0` and is absent. -/
def m0 : List (String × SourceFactory) :=
  [("around", assemble spec0 .around settings_all.match_),
   ("buffers", assemble spec0 .buffers settings_all.match_),
   ("lsp", assemble spec0 .lsp settings_all.match_),
   ("paths", assemble spec0 .paths settings_all.match_),
   ("tmux", assemble spec0 .tmux settings_all.match_),
   ("tree_sitter", assemble spec0 .tree_sitter settings_all.match_)]

/-! Theorems for the claims. -/

/-- C4: for every State `s`, `natural_insertable (comp_inserted
(char_inserted s))` is false — when both a character insertion and a
completion acceptance are recorded, the comp-inserted suppression wins —
and `natural_insertable (char_inserted (text_changed (comp_inserted s)))`
is true: the suppression is one-shot, consumed by a single `text_changed`
call. -/
theorem c4_comp_inserted_suppression_wins (s : State) :
    t_natural_insertable (t_comp_inserted (t_char_inserted s)) = false ∧
    t_natural_insertable (t_char_inserted (t_text_changed (t_comp_inserted s))) = true := by
  simp [t_natural_insertable, t_comp_inserted, t_char_inserted, t_text_changed]

/-- C5: in the text-changed handlers, the state after the handler is
`t_text_changed` of the state before it, in every case — whether or not
`t_natural_insertable` held and even when the enqueue raises — so the
char-inserted flag is cleared exactly once per text-changed event; the
enqueued signal, when the enqueue does not raise, is determined by
evaluating `t_natural_insertable` on the pre-transition state. -/
theorem c5_text_changed_applied_unconditionally (s : State) (enqueue_raises : Bool) :
    (text_changed_i s enqueue_raises).1 = t_text_changed s ∧
    (text_changed_i s enqueue_raises).1.char_inserted = false ∧
    (text_changed_p s enqueue_raises).1 = t_text_changed s ∧
    (text_changed_i s false).2.1 =
      (if t_natural_insertable s then some (next_comp { sources := s.sources }) else none) ∧
    (text_changed_i s true).2.1 = none := by
  unfold text_changed_i text_changed_p
  by_cases h : t_natural_insertable s <;> cases enqueue_raises <;>
    simp [h, t_text_changed]

/-- C7 counterexample: an omnifunc-driven invocation with `find_start == 1`
returns `-1` and enqueues no Signal at all, so it is not the case that
every manual or omnifunc invocation enqueues a forced Signal. -/
theorem c7_counterexample :
    (omnifunc ⟨true, false, ["lsp"]⟩ 1).2 = none ∧
    (omnifunc ⟨true, false, ["lsp"]⟩ 1).1 = -1 := by
  exact ⟨rfl, rfl⟩

/-- C7 (amended): `manual` always enqueues a Signal with `force = true`
scoped to the currently toggled source set, and `omnifunc` does so exactly
when `find_start ≠ 1` (returning `-2`), while the `find_start == 1` probe
returns `-1` and enqueues nothing; neither consults `t_natural_insertable`
— the enqueued signal is independent of the char-inserted and
comp-inserted flags. -/
theorem c7_forced_requests_bypass_state (s : State) :
    manual s = Signal.mk { force := true, sources := s.sources } ∧
    omnifunc s 1 = (-1, none) ∧
    (∀ find_start : ℤ, find_start ≠ 1 →
      omnifunc s find_start =
        (-2, some (Signal.mk { force := true, sources := s.sources }))) ∧
    (∀ ci co : Bool,
      manual { s with char_inserted := ci, comp_inserted := co } = manual s) ∧
    (∀ (ci co : Bool) (find_start : ℤ),
      omnifunc { s with char_inserted := ci, comp_inserted := co } find_start =
        omnifunc s find_start) := by
  refine ⟨rfl, by simp [omnifunc], fun fs h => by simp [omnifunc, h, next_comp],
    fun ci co => rfl, fun ci co fs => rfl⟩

/-- C7 witness: at a state whose flags would suppress a natural trigger,
`manual` still enqueues the forced signal, and `omnifunc` at
`find_start = 0` does too. -/
theorem c7_forced_requests_bypass_state_witness :
    manual ⟨true, true, ["lsp"]⟩ = Signal.mk { force := true, sources := ["lsp"] } ∧
    omnifunc ⟨true, true, ["lsp"]⟩ 0 =
      (-2, some (Signal.mk { force := true, sources := ["lsp"] })) :=
  ⟨(c7_forced_requests_bypass_state ⟨true, true, ["lsp"]⟩).1,
   (c7_forced_requests_bypass_state ⟨true, true, ["lsp"]⟩).2.2.1 0 (by decide)⟩

/-- C6: the settings timeout is the configured top-level `timeout` divided
by 1000 (milliseconds to seconds), and a null or zero configured timeout
yields the unbounded (infinite) timeout. -/
theorem c6_timeout_milliseconds (config : Config) :
    (config.timeout = none → (initial config).timeout = .inf) ∧
    (config.timeout = some 0 → (initial config).timeout = .inf) ∧
    (∀ q : ℚ, config.timeout = some q → q ≠ 0 →
      (initial config).timeout = .fin (q / 1000)) := by
  refine ⟨fun h => ?_, fun h => ?_, fun q h hq => ?_⟩
  · simp [initial, or_else_q, h, PyFloat.divBy]
  · simp [initial, or_else_q, h, PyFloat.divBy]
  · simp [initial, or_else_q, h, PyFloat.divBy, hq]

/-- A config with a concrete 2000 ms timeout, used by the C6 witness. -/
def config0 : Config :=
  { retries := 2, timeout := some 2000, display := ⟨"...", 4, 10⟩,
    match_ := ⟨2, ['_']⟩, cache := ⟨20, "c", "cache", 10, 1⟩,
    sources := [], snippet_engines := [], logging_level := "DEBUG" }

/-- C6 witness: a configured timeout of 2000 ms loads as 2 s. -/
theorem c6_timeout_milliseconds_witness : (initial config0).timeout = .fin 2 := by
  have h := (c6_timeout_milliseconds config0).2.2 2000 rfl (by norm_num)
  have h2 : (2000 : ℚ) / 1000 = 2 := by norm_num
  rw [h, h2]

/-- C10: `assemble` resolves the factory limit to the spec's limit when
truthy and to infinity when absent or zero, resolves the rank to the
spec's rank when truthy and to 100 otherwise, and embeds the same resolved
limit in the Seed handed to the source. -/
theorem c10_assemble_resolves_limit_rank (spec : SourceSpec) (main : Factory)
    (m : MatchOptions) :
    ((spec.limit = none ∨ spec.limit = some 0) → (assemble spec main m).limit = .inf) ∧
    (∀ q : ℚ, spec.limit = some q → q ≠ 0 → (assemble spec main m).limit = .fin q) ∧
    ((spec.rank = none ∨ spec.rank = some 0) → (assemble spec main m).rank = 100) ∧
    (∀ r : ℤ, spec.rank = some r → r ≠ 0 → (assemble spec main m).rank = r) ∧
    (assemble spec main m).seed.limit = (assemble spec main m).limit := by
  refine ⟨?_, ?_, ?_, ?_, rfl⟩
  · rintro (h | h) <;> simp [assemble, or_else_q, h]
  · intro q h hq; simp [assemble, or_else_q, h, hq]
  · rintro (h | h) <;> simp [assemble, or_else_z, h]
  · intro r h hr; simp [assemble, or_else_z, h, hr]

/-- C10 witness: a truthy limit 10 and rank 2 pass through; absent limit
and rank resolve to infinity and 100; the seed carries the resolved
limit. -/
theorem c10_assemble_resolves_limit_rank_witness :
    (assemble spec0 .around ⟨2, []⟩).limit = .fin 10 ∧
    (assemble spec0 .around ⟨2, []⟩).rank = 2 ∧
    (assemble spec_ext .around ⟨2, []⟩).limit = .inf ∧
    (assemble spec_ext .around ⟨2, []⟩).rank = 100 ∧
    (assemble spec0 .around ⟨2, []⟩).seed.limit = (assemble spec0 .around ⟨2, []⟩).limit :=
  ⟨(c10_assemble_resolves_limit_rank spec0 .around ⟨2, []⟩).2.1 10 (by decide) (by norm_num),
   (c10_assemble_resolves_limit_rank spec0 .around ⟨2, []⟩).2.2.2.1 2 (by decide) (by norm_num),
   (c10_assemble_resolves_limit_rank spec_ext .around ⟨2, []⟩).1 (Or.inl (by decide)),
   (c10_assemble_resolves_limit_rank spec_ext .around ⟨2, []⟩).2.2.1 (Or.inl (by decide)),
   (c10_assemble_resolves_limit_rank spec0 .around ⟨2, []⟩).2.2.2.2⟩

/-- The ranking comparison is transitive. -/
theorem rank_le_trans : ∀ a b c : RankedStep, rank_le a b → rank_le b c → rank_le a c := by
  intro a b c hab hbc
  simp only [rank_le, decide_eq_true_eq] at hab hbc ⊢
  exact le_trans hab hbc

/-- The ranking comparison is total. -/
theorem rank_le_total : ∀ a b : RankedStep, rank_le a b || rank_le b a := by
  intro a b
  simp only [rank_le, Bool.or_eq_true, decide_eq_true_eq]
  exact le_total _ _

/-- C2: the sequence the merge engine emits is sorted ascending by the
ranking key — source rank bias, then match score with the better score
first, then normalized text — and its length never exceeds the
settings-wide display limit. -/
theorem c2_merge_emit_sorted_and_capped (settings : Settings) (steps : List RankedStep) :
    List.Pairwise (fun a b => rank_le a b = true) (merge_emit settings steps) ∧
    (merge_emit settings steps).length ≤ settings.display.pum_max_len := by
  constructor
  · have hs := @List.sorted_mergeSort RankedStep rank_le rank_le_trans rank_le_total steps
    simp only [merge_emit]
    exact List.Pairwise.sublist (List.take_sublist _ _) hs
  · simp only [merge_emit]
    exact List.length_take_le _ _

/-- The scheduler invariant behind C3: once two Signals have arrived, the
generation is at least 2, any in-flight merge belongs to a generation of at
least 2, and no result of generation 1 has been delivered; one step
preserves it. -/
theorem sched_step_inv (r : ℕ) (s : SchedState) (e : SchedEvent)
    (h1 : 2 ≤ s.gen) (h2 : ∀ g, s.active = some g → 2 ≤ g)
    (h3 : (1, r) ∉ s.delivered) :
    2 ≤ (sched_step s e).gen ∧
    (∀ g, (sched_step s e).active = some g → 2 ≤ g) ∧
    (1, r) ∉ (sched_step s e).delivered := by
  cases e with
  | signal =>
    refine ⟨by simp [sched_step]; omega, ?_, h3⟩
    intro g hg
    simp [sched_step] at hg
    omega
  | merge_done g res =>
    by_cases h : s.active = some g
    · have hg := h2 g h
      simp only [sched_step, h, if_pos rfl]
      refine ⟨h1, by simp, ?_⟩
      intro hmem
      rcases List.mem_append.mp hmem with hmem | hmem
      · exact h3 hmem
      · simp at hmem
        omega
    · simp only [sched_step, if_neg h]
      exact ⟨h1, h2, h3⟩

/-- The scheduler invariant is preserved along any run. -/
theorem sched_run_inv (r : ℕ) :
    ∀ (events : List SchedEvent) (s : SchedState),
      (2 ≤ s.gen ∧ (∀ g, s.active = some g → 2 ≤ g) ∧ (1, r) ∉ s.delivered) →
      2 ≤ (sched_run s events).gen ∧
      (∀ g, (sched_run s events).active = some g → 2 ≤ g) ∧
      (1, r) ∉ (sched_run s events).delivered := by
  intro events
  induction events with
  | nil => intro s h; exact h
  | cons e es ih =>
    intro s h
    exact ih (sched_step s e) (sched_step_inv r s e h.1 h.2.1 h.2.2)

/-- C3: when the Signal for R2 arrives while R1's merge is still in flight
(generation 1 superseded by generation 2 before any completion), the
consumer never observes any result of R1's generation, whatever happens
afterwards; in particular on the trace where R1's merge then completes
stale and R2's merge completes, only R2's result is delivered. -/
theorem c3_supersede_discards_stale (rest : List SchedEvent) (r q : ℕ) :
    (1, r) ∉ (sched_run sched_init ([.signal, .signal] ++ rest)).delivered ∧
    (sched_run sched_init
        [.signal, .signal, .merge_done 1 r, .merge_done 2 q]).delivered = [(2, q)] := by
  constructor
  · have heq : sched_run sched_init ([.signal, .signal] ++ rest) =
        sched_run (sched_run sched_init [.signal, .signal]) rest := by
      simp [sched_run, List.foldl_append]
    rw [heq]
    have hstate : sched_run sched_init [.signal, .signal] =
        { gen := 2, active := some 2, delivered := [] } := rfl
    rw [hstate]
    refine (sched_run_inv r rest _ ⟨le_refl 2, ?_, by simp⟩).2.2
    intro g hg
    simp at hg
    omega
  · simp [sched_run, sched_step, sched_init, List.foldl]

/-- The `Except.map` hits `ok` exactly when its argument was `ok`. -/
theorem except_map_eq_ok {ε α β : Type _} (f : α → β) (x : Except ε α) (b : β) :
    x.map f = .ok b ↔ ∃ a, x = .ok a ∧ f a = b := by
  cases x <;> simp [Except.map]

/-- In a list whose keys are nodup, a key determines its value. -/
theorem key_unique {β : Type _} (k : String) (b1 b2 : β) :
    ∀ l : List (String × β), (l.map Prod.fst).Nodup →
      (k, b1) ∈ l → (k, b2) ∈ l → b1 = b2 := by
  intro l
  induction l with
  | nil => intro _ h1 _; cases h1
  | cons hd tl ih =>
    intro h h1 h2
    simp only [List.map_cons, List.nodup_cons] at h
    rcases List.mem_cons.mp h1 with e1 | m1 <;> rcases List.mem_cons.mp h2 with e2 | m2
    · rw [← e2] at e1
      exact ((Prod.mk.injEq _ _ _ _).mp e1).2
    · exfalso
      rw [← e1] at h
      exact h.1 (List.mem_map.mpr ⟨(k, b2), m2, rfl⟩)
    · exfalso
      rw [← e2] at h
      exact h.1 (List.mem_map.mpr ⟨(k, b1), m1, rfl⟩)
    · exact ih h.2 m1 m2

/-- The intrinsic loop succeeds exactly when every intrinsic name has an
entry in the sources map. -/
theorem load_intrinsics_ok_iff (sources : List (String × SourceSpec)) (m : MatchOptions) :
    ∀ il : List (String × Factory),
      (∃ l, load_intrinsics sources m il = .ok l) ↔
        ∀ p ∈ il, (sources.lookup p.1).isSome = true := by
  intro il
  induction il with
  | nil => simp [load_intrinsics]
  | cons hd tl ih =>
    obtain ⟨name, main⟩ := hd
    cases hlk : sources.lookup name with
    | none =>
      simp only [load_intrinsics, hlk]
      constructor
      · rintro ⟨l, hl⟩
        exact Except.noConfusion hl
      · intro h
        have := h (name, main) (List.mem_cons_self _ _)
        rw [hlk] at this
        exact Bool.noConfusion this
    | some spec =>
      simp only [load_intrinsics, hlk]
      rw [List.forall_mem_cons]
      constructor
      · rintro ⟨l, hl⟩
        rcases (except_map_eq_ok _ _ _).mp hl with ⟨a, ha, _⟩
        exact ⟨by simp [hlk], ih.mp ⟨a, ha⟩⟩
      · rintro ⟨_, htl⟩
        rcases ih.mpr htl with ⟨a, ha⟩
        exact ⟨(name, assemble spec main m) :: a, by rw [ha]; rfl⟩

/-- The intrinsic loop yields the intrinsic names, in order. -/
theorem load_intrinsics_keys (sources : List (String × SourceSpec)) (m : MatchOptions) :
    ∀ (il : List (String × Factory)) (l : List (String × SourceFactory)),
      load_intrinsics sources m il = .ok l → l.map Prod.fst = il.map Prod.fst := by
  intro il
  induction il with
  | nil =>
    intro l h
    simp only [load_intrinsics, Except.ok.injEq] at h
    subst h
    simp
  | cons hd tl ih =>
    obtain ⟨name, main⟩ := hd
    intro l h
    cases hlk : sources.lookup name with
    | none =>
      simp only [load_intrinsics, hlk] at h
      exact Except.noConfusion h
    | some spec =>
      simp only [load_intrinsics, hlk] at h
      rcases (except_map_eq_ok _ _ _).mp h with ⟨a, ha, hfa⟩
      subst hfa
      simp [ih a ha]

/-- An intrinsic name with an entry in the sources map is assembled and
yielded by the intrinsic loop, regardless of the entry's enabled flag. -/
theorem load_intrinsics_mem (sources : List (String × SourceSpec)) (m : MatchOptions) :
    ∀ (il : List (String × Factory)) (l : List (String × SourceFactory))
      (name : String) (main : Factory) (spec : SourceSpec),
      load_intrinsics sources m il = .ok l → (name, main) ∈ il →
      sources.lookup name = some spec →
      (name, assemble spec main m) ∈ l := by
  intro il
  induction il with
  | nil => intro l name main spec _ hmem _; cases hmem
  | cons hd tl ih =>
    obtain ⟨n, f⟩ := hd
    intro l name main spec h hmem hlk
    cases hlkn : sources.lookup n with
    | none =>
      simp only [load_intrinsics, hlkn] at h
      exact Except.noConfusion h
    | some sp =>
      simp only [load_intrinsics, hlkn] at h
      rcases (except_map_eq_ok _ _ _).mp h with ⟨a, ha, hfa⟩
      subst hfa
      rcases List.mem_cons.mp hmem with e | mtl
      · obtain ⟨rfl, rfl⟩ : name = n ∧ main = f := by simpa using e
        rw [hlk] at hlkn
        injection hlkn with hsp
        rw [hsp]
        exact List.mem_cons_self _ _
      · exact List.mem_cons_of_mem _ (ih a name main spec ha mtl hlk)

/-- Every entry the intrinsic loop yields is a freshly assembled factory. -/
theorem load_intrinsics_entries (sources : List (String × SourceSpec)) (m : MatchOptions) :
    ∀ (il : List (String × Factory)) (l : List (String × SourceFactory)),
      load_intrinsics sources m il = .ok l →
      ∀ p ∈ l, ∃ spec main, p.2 = assemble spec main m := by
  intro il
  induction il with
  | nil =>
    intro l h
    simp only [load_intrinsics, Except.ok.injEq] at h
    subst h
    simp
  | cons hd tl ih =>
    obtain ⟨n, f⟩ := hd
    intro l h
    cases hlk : sources.lookup n with
    | none =>
      simp only [load_intrinsics, hlk] at h
      exact Except.noConfusion h
    | some spec =>
      simp only [load_intrinsics, hlk] at h
      rcases (except_map_eq_ok _ _ _).mp h with ⟨a, ha, hfa⟩
      subst hfa
      intro p hp
      rcases List.mem_cons.mp hp with e | mtl
      · exact ⟨spec, f, by rw [e]⟩
      · exact ih a ha p mtl

/-- C9: `load_factories` returns a map (rather than raising `KeyError`) if
and only if the settings' sources map has an entry for every intrinsic
name, and whenever it returns a map, every intrinsic name with an entry —
enabled or not — is present in the map with its assembled factory. -/
theorem c9_load_factories_intrinsic_total (env : LoaderEnv) (settings : Settings) :
    ((∃ m, load_factories env settings = .ok m) ↔
      ∀ p ∈ intrinsic, (settings.sources.lookup p.1).isSome = true) ∧
    (∀ (name : String) (main : Factory) (spec : SourceSpec)
        (m : List (String × SourceFactory)),
      (name, main) ∈ intrinsic →
      settings.sources.lookup name = some spec →
      load_factories env settings = .ok m →
      (name, assemble spec main settings.match_) ∈ m) := by
  constructor
  · constructor
    · rintro ⟨m, hm⟩
      unfold load_factories at hm
      rcases (except_map_eq_ok _ _ _).mp hm with ⟨a, ha, _⟩
      exact (load_intrinsics_ok_iff _ _ intrinsic).mp ⟨a, ha⟩
    · intro h
      rcases (load_intrinsics_ok_iff settings.sources settings.match_ intrinsic).mpr h with ⟨a, ha⟩
      exact ⟨_, by unfold load_factories; rw [ha]; rfl⟩
  · intro name main spec m hmem hlk hok
    unfold load_factories at hok
    rcases (except_map_eq_ok _ _ _).mp hok with ⟨a, ha, hfa⟩
    subst hfa
    exact List.mem_append_left _
      (load_intrinsics_mem _ _ intrinsic a name main spec ha hmem hlk)

/-- C9 witness: under `env0` and `settings_all`, loading succeeds and the
`around` factory — assembled from a spec whose enabled flag is false — is
in the returned map. -/
theorem c9_load_factories_intrinsic_total_witness :
    ("around", assemble spec0 Factory.around settings_all.match_) ∈ m0 :=
  (c9_load_factories_intrinsic_total env0 settings_all).2 "around" Factory.around spec0 m0
    (by decide) (by decide) rfl

/-- C1 counterexample: under a loader that resolves nothing, a Settings
value holding only one externally named source makes `load_factories`
raise `KeyError` (for the first intrinsic name) instead of returning a
map, so it is not true of every Settings value that an unresolvable
external source merely ends up absent from a successfully returned map. -/
theorem c1_counterexample :
    load_external env0 spec_ext.main = none ∧
    load_factories env0 settings_noint = .error ⟨"around"⟩ :=
  ⟨rfl, rfl⟩

/-- C1 (amended): for every Settings value whose sources map (with its
Python-dict unique keys) has an entry for every intrinsic name, an
externally named source — one not in the intrinsic set — whose entry point
`load_external` cannot resolve is simply absent from the map
`load_factories` returns, and `load_factories` does return a map without
raising. -/
theorem c1_unresolvable_external_omitted (env : LoaderEnv) (settings : Settings)
    (name : String) (spec : SourceSpec)
    (hnd : (settings.sources.map Prod.fst).Nodup)
    (hintr : ∀ p ∈ intrinsic, (settings.sources.lookup p.1).isSome = true)
    (hmem : (name, spec) ∈ settings.sources)
    (hni : intrinsic.lookup name = none)
    (hun : load_external env spec.main = none) :
    ∃ m, load_factories env settings = .ok m ∧ m.lookup name = none := by
  rcases (load_intrinsics_ok_iff settings.sources settings.match_ intrinsic).mpr hintr
    with ⟨a, ha⟩
  have hload : load_factories env settings =
      .ok (a ++ settings.sources.filterMap fun p =>
        if (intrinsic.lookup p.1).isSome then none
        else
          match load_external env p.2.main with
          | some main => some (p.1, assemble p.2 main settings.match_)
          | none => none) := by
    unfold load_factories
    rw [ha]
    rfl
  refine ⟨_, hload, ?_⟩
  rw [List.lookup_append]
  have hkeys := load_intrinsics_keys settings.sources settings.match_ intrinsic a ha
  have hintr_none : ∀ p ∈ intrinsic, name ≠ (p : String × Factory).1 := by
    simpa using List.lookup_eq_none_iff.mp hni
  have hleft : a.lookup name = none := by
    rw [List.lookup_eq_none_iff]
    intro p hp
    have hp1 : p.1 ∈ intrinsic.map Prod.fst := by
      rw [← hkeys]
      exact List.mem_map_of_mem Prod.fst hp
    rcases List.mem_map.mp hp1 with ⟨q, hq, hq1⟩
    simpa [hq1] using bne_iff_ne.mpr (hintr_none q hq)
  have hright : (settings.sources.filterMap fun p =>
      if (intrinsic.lookup p.1).isSome then none
      else
        match load_external env p.2.main with
        | some main => some (p.1, assemble p.2 main settings.match_)
        | none => none).lookup name = none := by
    rw [List.lookup_eq_none_iff]
    intro q hq
    rcases List.mem_filterMap.mp hq with ⟨p, hp, hfp⟩
    rw [bne_iff_ne]
    intro hq1
    by_cases hi : (intrinsic.lookup p.1).isSome
    · rw [if_pos hi] at hfp
      exact Option.noConfusion hfp
    · rw [if_neg hi] at hfp
      cases hle : load_external env p.2.main with
      | none =>
        rw [hle] at hfp
        exact Option.noConfusion hfp
      | some mf =>
        rw [hle] at hfp
        injection hfp with hfp
        have hp1 : p.1 = name := by rw [← hfp] at hq1; exact hq1.symm
        have hpmem : (name, p.2) ∈ settings.sources := by
          rw [← hp1]
          exact hp
        have hpspec : p.2 = spec := key_unique name p.2 spec settings.sources hnd hpmem hmem
        rw [hpspec, hun] at hle
        exact Option.noConfusion hle
  rw [hleft, hright]
  rfl

/-- C1 witness: with all intrinsic names configured and one unresolvable
external name, loading succeeds and the external name is absent from the
map. -/
theorem c1_unresolvable_external_omitted_witness :
    ∃ m, load_factories env0 settings_all = Except.ok m ∧ m.lookup "myext" = none :=
  c1_unresolvable_external_omitted env0 settings_all "myext" spec_ext
    (by decide) (by decide) (by decide) (by decide) rfl

/-- C8: the record types are immutable — attribute assignment on the
frozen dataclasses `State`, `Step`, `Settings`, `SourceFactory` always
raises `FrozenInstanceError` — every state transition returns a fresh
State built from the input's fields, and every settings load builds a map
all of whose factories are freshly assembled from the settings
generation. -/
theorem c8_immutable_records :
    (∀ (s : State) (a : String), State.setattr_model s a = .frozenInstanceError) ∧
    (∀ (st : Step) (a : String), Step.setattr_model st a = .frozenInstanceError) ∧
    (∀ (s : Settings) (a : String), Settings.setattr_model s a = .frozenInstanceError) ∧
    (∀ (f : SourceFactory) (a : String), SourceFactory.setattr_model f a = .frozenInstanceError) ∧
    (∀ s : State, t_char_inserted s = ⟨true, s.comp_inserted, s.sources⟩) ∧
    (∀ s : State, t_comp_inserted s = ⟨s.char_inserted, true, s.sources⟩) ∧
    (∀ s : State, t_text_changed s = ⟨false, false, s.sources⟩) ∧
    (∀ (s : State) (srcs : List String),
      t_set_sources s srcs = ⟨s.char_inserted, s.comp_inserted, srcs⟩) ∧
    (∀ (env : LoaderEnv) (settings : Settings) (m : List (String × SourceFactory)),
      load_factories env settings = .ok m →
      ∀ p ∈ m, ∃ spec main, p.2 = assemble spec main settings.match_) := by
  refine ⟨fun _ _ => rfl, fun _ _ => rfl, fun _ _ => rfl, fun _ _ => rfl,
    fun s => rfl, fun s => rfl, fun s => rfl, fun s srcs => rfl, ?_⟩
  intro env settings m hok p hp
  unfold load_factories at hok
  rcases (except_map_eq_ok _ _ _).mp hok with ⟨a, ha, hfa⟩
  subst hfa
  rcases List.mem_append.mp hp with hpa | hpe
  · exact load_intrinsics_entries _ _ intrinsic a ha p hpa
  · rcases List.mem_filterMap.mp hpe with ⟨q, hq, hfq⟩
    by_cases hi : (intrinsic.lookup q.1).isSome
    · rw [if_pos hi] at hfq
      exact Option.noConfusion hfq
    · rw [if_neg hi] at hfq
      cases hle : load_external env q.2.main with
      | none =>
        rw [hle] at hfq
        exact Option.noConfusion hfq
      | some mf =>
        rw [hle] at hfq
        injection hfq with hfq
        exact ⟨q.2, mf, by rw [← hfq]⟩

/-- C8 witness: in the concrete load under `env0` and `settings_all`, the
first factory of the returned map is a freshly assembled one. -/
theorem c8_immutable_records_witness :
    ∃ spec main,
      ("around", assemble spec0 Factory.around settings_all.match_).2 =
        assemble spec main settings_all.match_ :=
  c8_immutable_records.2.2.2.2.2.2.2.2 env0 settings_all m0 rfl
    ("around", assemble spec0 Factory.around settings_all.match_) (List.mem_cons_self _ _)

end Narc
